import Mathlib

/-!
Shallow embedding of `src/adloader.js` (Prebid.js external-script loader).

The loader keeps a per-document cache (`_requestCache`, a WeakMap keyed by
the document) mapping each url to a cache object
`{ loaded : Bool, tag, callbacks }`.  `loadExternalScript` performs a
policy-gate check, input validation and an allow-list check, then either
joins an existing cache entry (immediately invoking or queueing the
callback) or creates a fresh entry and calls `requestResource`, which
builds the script element, stores it as the entry's tag, applies the
caller's attributes, inserts it into the document and arms the completion
handler.  The completion handler (modelled as `markLoaded`) sets
`loaded := true` and runs the queued callbacks inside a single `try`.

We model documents as naturals (`Ctx`), callbacks as opaque identifiers
(`Nat`) whose behaviour (throw or return) is given by the environment,
and script elements as values carrying a fresh identity, their `src` and
the attributes applied to them.  Observable side effects (policy-gate
consultation, log lines, element creation/insertion, callback
invocations) are recorded in an event trace.
-/

namespace Adloader

abbrev Ctx := Nat
abbrev Url := String

/-- A script element: `id` is the element's identity (allocation order),
`src` its `src` attribute, `attrs` the attributes applied via
`setScriptAttributes`. -/
structure ScriptTag where
  id : Nat
  src : String
  attrs : List (String × String)
deriving Repr, DecidableEq

/-- The cache object stored per `(document, url)`:
`{ loaded: false, tag: null, callbacks: [] }` at creation. -/
structure CacheObject where
  loaded : Bool
  tag : Option ScriptTag
  callbacks : List Nat
deriving Repr, DecidableEq

/-- Global mutable state of the module: the two-level `_requestCache`
(flattened to an association list keyed by `(document, url)`), the next
fresh element identity, and the set of element ids that have been
inserted into a document (successful `insertElement` calls). -/
structure AdState where
  cache : List ((Ctx × Url) × CacheObject)
  nextId : Nat
  inserted : List Nat
deriving Repr, DecidableEq

def AdState.init : AdState := { cache := [], nextId := 0, inserted := [] }

/-- Observable effects, in program order. -/
inductive Event where
  | policyCheck (moduleType moduleCode : String)
  | logError (msg : String)
  | logWarn (msg : String)
  | createScript (doc : Ctx)
  | applyAttributes (a : List (String × String))
  | insertScript (doc : Ctx) (tag : ScriptTag)
  | invoke (cb : Nat)
deriving Repr, DecidableEq

/-- The environment: the external policy gate (`isActivityAllowed`, as a
function of the activity params' moduleType and moduleCode) and, for each
callback identifier, whether invoking it throws. -/
structure Env where
  isActivityAllowed : String → String → Bool
  throwsCb : Nat → Bool

/-- `getCacheObject(doc, url)` from the source: look up the per-document
map, then the url. -/
def getCacheObject (s : AdState) (doc : Ctx) (url : Url) : Option CacheObject :=
  (s.cache.find? (fun e => e.1 == (doc, url))).map (·.2)

/-- Store a cache object under `(doc, url)`: overwrite the existing entry
or prepend a new one (`cachedDocObj[url] = cacheObject`). -/
def setCacheObject (s : AdState) (doc : Ctx) (url : Url) (co : CacheObject) : AdState :=
  if (s.cache.find? (fun e => e.1 == (doc, url))).isSome then
    { s with cache := s.cache.map (fun e => if e.1 == (doc, url) then (e.1, co) else e) }
  else
    { s with cache := ((doc, url), co) :: s.cache }

/-- The hard-coded `_approvedLoadExternalJSList` from the source. -/
def _approvedLoadExternalJSList : List String := [
  "debugging",
  "outstream",
  "aaxBlockmeter",
  "adagio",
  "adloox",
  "arcspan",
  "airgrid",
  "browsi",
  "brandmetrics",
  "clean.io",
  "humansecurityMalvDefense",
  "humansecurity",
  "confiant",
  "contxtful",
  "hadron",
  "mediafilter",
  "medianet",
  "azerionedge",
  "a1Media",
  "geoedge",
  "qortex",
  "dynamicAdBoost",
  "51Degrees",
  "symitridap",
  "wurfl",
  "nodalsAi",
  "anonymised",
  "optable",
  "justtag",
  "tncId",
  "ftrackId",
  "id5"
]

/-- Result of one `loadExternalScript` call: the state after the call,
the emitted events in order, and the return value.  `Except.error ()`
models an uncaught exception propagating out of the call; `.ok none`
models returning `undefined`/`null` (no handle). -/
structure LEResult where
  state : AdState
  events : List Event
  ret : Except Unit (Option ScriptTag)
deriving Repr

/-- `loadExternalScript(url, moduleType, moduleCode, callback, doc, attributes)`.

`insertOk` models whether the synchronous `insertElement` call succeeds;
when it is `false` the insertion throws and the exception propagates out
of `loadExternalScript` (only reachable on the entry-creating path).
The nested `requestResource` is inlined at its single call site: it
creates the script element, stores it as the entry's `tag` (the cache
holds a reference, so the stored tag reflects the subsequently assigned
`src` and attributes), applies `attributes` when present, inserts the
element and returns it.  The `onload`/`onreadystatechange` completion
handler it arms is modelled separately as `markLoaded`. -/
def loadExternalScript (env : Env) (insertOk : Bool) (s : AdState)
    (url moduleType moduleCode : String)
    (callback : Option Nat) (doc? : Option Ctx)
    (attributes : Option (List (String × String))) : LEResult :=
  let evs0 := [Event.policyCheck moduleType moduleCode]
  if !(env.isActivityAllowed moduleType moduleCode) then
    ⟨s, evs0, .ok none⟩
  else if moduleCode.isEmpty || url.isEmpty then
    ⟨s, evs0 ++ [.logError "cannot load external script without url and moduleCode"], .ok none⟩
  else if !(_approvedLoadExternalJSList.contains moduleCode) then
    ⟨s, evs0 ++ [.logError (moduleCode ++ " not whitelisted for loading external JavaScript")],
      .ok none⟩
  else
    -- `if (!doc) doc = document;`
    let doc := doc?.getD 0
    match getCacheObject s doc url with
    | some co =>
      -- only load each asset once
      match callback with
      | some cb =>
        if co.loaded then
          -- invoke callback immediately; a throw propagates (no try here)
          if env.throwsCb cb then ⟨s, evs0 ++ [.invoke cb], .error ()⟩
          else ⟨s, evs0 ++ [.invoke cb], .ok co.tag⟩
        else
          -- queue the callback
          ⟨setCacheObject s doc url { co with callbacks := co.callbacks ++ [cb] },
            evs0, .ok co.tag⟩
      | none => ⟨s, evs0, .ok co.tag⟩
    | none =>
      -- create the cache object, register it, push the callback
      let co0 : CacheObject := { loaded := false, tag := none, callbacks := callback.toList }
      let s1 := setCacheObject s doc url co0
      let evs1 := evs0 ++ [.logWarn ("module " ++ moduleCode ++ " is loading external JavaScript")]
      -- requestResource: doc.createElement, then cacheObject.tag = jptScript,
      -- then src / attributes mutate the same element, then insertElement
      let tag : ScriptTag := { id := s1.nextId, src := url, attrs := (attributes.getD []) }
      let s2 : AdState := { s1 with nextId := s1.nextId + 1 }
      let evs2 := evs1 ++ [.createScript doc] ++
        (match attributes with
         | some a => [Event.applyAttributes a]
         | none => [])
      let s3 := setCacheObject s2 doc url { co0 with tag := some tag }
      if insertOk then
        ⟨{ s3 with inserted := s3.inserted ++ [tag.id] },
          evs2 ++ [.insertScript doc tag], .ok (some tag)⟩
      else
        ⟨s3, evs2, .error ()⟩

/-- Run the queued callbacks of one cache object in order, inside the
single `try` of the completion handler: a throwing callback is caught
and logged once, and the loop does not resume (later callbacks are
skipped). -/
def drainEvents (env : Env) : List Nat → List Event
  | [] => []
  | cb :: rest =>
    if env.throwsCb cb then
      [Event.invoke cb, Event.logError "Error executing callback"]
    else
      Event.invoke cb :: drainEvents env rest

/-- The completion handler armed by `requestResource` for the entry at
`(doc, url)`: set `cacheObject.loaded = true`, then run the queued
callbacks inside one `try`.  The callbacks list is not cleared. -/
def markLoaded (env : Env) (s : AdState) (doc : Ctx) (url : Url) : AdState × List Event :=
  match getCacheObject s doc url with
  | none => (s, [])
  | some co =>
    (setCacheObject s doc url { co with loaded := true }, drainEvents env co.callbacks)

/-- The checks a call must pass before it touches the cache, exactly as
the source tests them: policy gate, non-empty `moduleCode`/`url`,
allow-list membership. -/
def passesChecks (env : Env) (url moduleType moduleCode : String) : Bool :=
  env.isActivityAllowed moduleType moduleCode &&
    !(moduleCode.isEmpty || url.isEmpty) &&
    _approvedLoadExternalJSList.contains moduleCode

/-- One step of the cooperative scheduler: either some caller invokes
`loadExternalScript`, or the environment fires the completion signal of
the script element belonging to `(doc, url)`. -/
inductive Step where
  | call (insertOk : Bool) (url moduleType moduleCode : String)
      (callback : Option Nat) (doc? : Option Ctx)
      (attributes : Option (List (String × String)))
  | complete (doc : Ctx) (url : Url)
deriving Repr, DecidableEq

def runStep (env : Env) (s : AdState) : Step → AdState × List Event
  | .call insertOk url mt mc cb doc? attrs =>
    let r := loadExternalScript env insertOk s url mt mc cb doc? attrs
    (r.state, r.events)
  | .complete doc url => markLoaded env s doc url

def run (env : Env) (s : AdState) : List Step → AdState × List Event
  | [] => (s, [])
  | st :: rest =>
    let p := runStep env s st
    let q := run env p.1 rest
    (q.1, p.2 ++ q.2)

/-- A completion signal can fire for `(doc, url)` only if the entry's
script element was actually inserted into the document: the browser
delivers `load`/`readystatechange` only for elements added to the page. -/
def completeReady (s : AdState) (doc : Ctx) (url : Url) : Bool :=
  match getCacheObject s doc url with
  | some co =>
    match co.tag with
    | some t => s.inserted.contains t.id
    | none => false
  | none => false

/-- Well-formedness of a trace from state `s`: every `complete` step
fires for an entry whose element was inserted. -/
def wfTrace (env : Env) (s : AdState) : List Step → Bool
  | [] => true
  | st :: rest =>
    (match st with
     | .complete doc url => completeReady s doc url
     | .call .. => true) && wfTrace env (runStep env s st).1 rest

/-- Events emitted by the optional `setScriptAttributes` call. -/
def attrEvents : Option (List (String × String)) → List Event
  | some a => [Event.applyAttributes a]
  | none => []

/-- Recognizer for attribute-application events. -/
def Event.isApplyAttributes : Event → Bool
  | .applyAttributes _ => true
  | _ => false

/-- Recognizer for element-insertion events (the actual fetch start). -/
def Event.isInsert : Event → Bool
  | .insertScript _ _ => true
  | _ => false

/-- Recognizer for element-creation events. -/
def Event.isCreate : Event → Bool
  | .createScript _ => true
  | _ => false

/-- Recognizer for callback-invocation events. -/
def Event.isInvoke : Event → Bool
  | .invoke _ => true
  | _ => false

/-- The callback argument of a step, when it is a call. -/
def Step.cbOf : Step → Option Nat
  | .call _ _ _ _ cb? _ _ => cb?
  | .complete _ _ => none

/-- Every entry of the registry holds a constructed script element: true
of every state reachable once each `loadExternalScript` call has run to
its end (the element is stored in the entry before `insertElement`). -/
def tagsSet (s : AdState) : Prop := ∀ e ∈ s.cache, e.2.tag.isSome = true

/-- Arguments of one `loadExternalScript` call in a same-`(doc, url)`
request sequence. -/
structure CallSpec where
  mt : String
  mc : String
  cb? : Option Nat
  attrs : Option (List (String × String))
deriving Repr, DecidableEq

/-- Run a sequence of `loadExternalScript` calls, all for the same `url`
and document, accumulating events and the per-call return values. -/
def runCalls (env : Env) (url : String) (doc? : Option Ctx) (s : AdState) :
    List CallSpec → AdState × List Event × List (Except Unit (Option ScriptTag))
  | [] => (s, [], [])
  | c :: rest =>
    let r := loadExternalScript env true s url c.mt c.mc c.cb? doc? c.attrs
    let q := runCalls env url doc? r.state rest
    (q.1, r.events ++ q.2.1, r.ret :: q.2.2)

/-- The invariant of a dead entry at `(d, u)`: the creating call's
synchronous insertion threw, leaving the entry pending with callback
`cb` queued and an element `t` that was never inserted; no other entry
holds `cb`. -/
def DeadInv (d : Ctx) (u : Url) (cb : Nat) (t : ScriptTag) (s : AdState) : Prop :=
  (∃ l, getCacheObject s d u = some ⟨false, some t, cb :: l⟩) ∧
    t.id ∉ s.inserted ∧
    t.id < s.nextId ∧
    (∀ p co, p ≠ (d, u) → getCacheObject s p.1 p.2 = some co → cb ∉ co.callbacks)

/-- Environment in which the policy gate allows everything and no
callback throws. -/
def envOK : Env := ⟨fun _ _ => true, fun _ => false⟩

/-- Environment in which the policy gate allows everything and exactly
callback `1` throws when invoked. -/
def envThrow1 : Env := ⟨fun _ _ => true, fun n => n == 1⟩

/-- Environment in which the policy gate denies everything. -/
def envDeny : Env := ⟨fun _ _ => false, fun _ => false⟩

/-! ### Registry lemmas -/

theorem find?_update_self (l : List ((Ctx × Url) × CacheObject)) (k : Ctx × Url)
    (co : CacheObject) (h : (l.find? (fun e => e.1 == k)).isSome) :
    ((l.map (fun e => if e.1 == k then (e.1, co) else e)).find?
      (fun e => e.1 == k)).map (·.2) = some co := by
  induction l with
  | nil => simp at h
  | cons e t ih =>
    simp only [List.map_cons]
    by_cases hk : e.1 = k
    · have hb : (e.1 == k) = true := by simpa using hk
      rw [if_pos hb, List.find?_cons_of_pos _ (by simpa using hk)]
      rfl
    · have hb : (e.1 == k) = false := by simpa using hk
      rw [if_neg (by simp [hb]), List.find?_cons_of_neg _ (by simp [hb])]
      rw [List.find?_cons_of_neg _ (by simp [hb])] at h
      exact ih h

theorem find?_update_other (l : List ((Ctx × Url) × CacheObject)) (k : Ctx × Url)
    (co : CacheObject) (k' : Ctx × Url) (hne : k' ≠ k) :
    (l.map (fun e => if e.1 == k then (e.1, co) else e)).find? (fun e => e.1 == k') =
      l.find? (fun e => e.1 == k') := by
  induction l with
  | nil => simp
  | cons e t ih =>
    simp only [List.map_cons]
    by_cases hk : e.1 = k
    · have hb : (e.1 == k) = true := by simpa using hk
      have hb'' : (e.1 == k') = false := by
        simp only [beq_eq_false_iff_ne, ne_eq]
        rw [hk]; exact fun hh => hne hh.symm
      rw [if_pos hb, List.find?_cons_of_neg _ (by simp [hb'']),
        List.find?_cons_of_neg _ (by simp [hb''])]
      exact ih
    · have hb : (e.1 == k) = false := by simpa using hk
      by_cases hk' : e.1 = k'
      · rw [if_neg (by simp [hb]), List.find?_cons_of_pos _ (by simpa using hk'),
          List.find?_cons_of_pos _ (by simpa using hk')]
      · rw [if_neg (by simp [hb]), List.find?_cons_of_neg _ (by simpa using hk'),
          List.find?_cons_of_neg _ (by simpa using hk')]
        exact ih

theorem getCacheObject_set_same (s : AdState) (d : Ctx) (u : Url) (co : CacheObject) :
    getCacheObject (setCacheObject s d u co) d u = some co := by
  unfold getCacheObject setCacheObject
  rcases h : (s.cache.find? (fun e => e.1 == (d, u))).isSome with _ | _
  · simp [h]
  · simp only [h, if_pos]
    exact find?_update_self s.cache (d, u) co h

theorem getCacheObject_set_other (s : AdState) (d : Ctx) (u : Url) (co : CacheObject)
    (d' : Ctx) (u' : Url) (hne : (d', u') ≠ (d, u)) :
    getCacheObject (setCacheObject s d u co) d' u' = getCacheObject s d' u' := by
  unfold getCacheObject setCacheObject
  rcases h : (s.cache.find? (fun e => e.1 == (d, u))).isSome with _ | _
  · have hb : (((d, u) : Ctx × Url) == (d', u')) = false := by simpa using (Ne.symm hne)
    simp [h, hb]
  · simp only [h, if_pos]
    rw [find?_update_other s.cache (d, u) co (d', u') hne]

theorem map_update_id (l : List ((Ctx × Url) × CacheObject)) (k : Ctx × Url)
    (co : CacheObject) (h : l.find? (fun e => e.1 == k) = none) :
    l.map (fun e => if e.1 == k then (e.1, co) else e) = l := by
  induction l with
  | nil => simp
  | cons e t ih =>
    by_cases hk : e.1 = k
    · rw [List.find?_cons_of_pos _ (by simpa using hk)] at h
      exact absurd h (by simp)
    · have hb : (e.1 == k) = false := by simpa using hk
      rw [List.find?_cons_of_neg _ (by simp [hb])] at h
      simp only [List.map_cons, if_neg (by simp [hb] : ¬((e.1 == k) = true)), ih h]

theorem setCacheObject_not_mem (s : AdState) (d : Ctx) (u : Url) (co : CacheObject)
    (h : getCacheObject s d u = none) :
    setCacheObject s d u co = { s with cache := ((d, u), co) :: s.cache } := by
  unfold getCacheObject at h
  have hf : s.cache.find? (fun e => e.1 == (d, u)) = none := by
    cases hh : s.cache.find? (fun e => e.1 == (d, u)) with
    | none => rfl
    | some v => rw [hh] at h; simp at h
  unfold setCacheObject
  rw [hf]
  rfl

theorem setCacheObject_nextId (s : AdState) (d : Ctx) (u : Url) (co : CacheObject) :
    (setCacheObject s d u co).nextId = s.nextId := by
  unfold setCacheObject
  split <;> rfl

theorem setCacheObject_inserted (s : AdState) (d : Ctx) (u : Url) (co : CacheObject) :
    (setCacheObject s d u co).inserted = s.inserted := by
  unfold setCacheObject
  split <;> rfl

/-! ### Branch equations for `loadExternalScript` -/

theorem passesChecks_spec {env : Env} {url mt mc : String}
    (h : passesChecks env url mt mc = true) :
    env.isActivityAllowed mt mc = true ∧ (mc.isEmpty || url.isEmpty) = false ∧
      _approvedLoadExternalJSList.contains mc = true := by
  unfold passesChecks at h
  simp only [Bool.and_eq_true, Bool.not_eq_true'] at h
  exact ⟨h.1.1, h.1.2, h.2⟩

theorem loadExternalScript_policy_denied (env : Env) (io : Bool) (s : AdState)
    (url mt mc : String) (cb? : Option Nat) (doc? : Option Ctx)
    (attrs : Option (List (String × String)))
    (h : env.isActivityAllowed mt mc = false) :
    loadExternalScript env io s url mt mc cb? doc? attrs =
      ⟨s, [Event.policyCheck mt mc], .ok none⟩ := by
  unfold loadExternalScript
  simp [h]

theorem loadExternalScript_invalid (env : Env) (io : Bool) (s : AdState)
    (url mt mc : String) (cb? : Option Nat) (doc? : Option Ctx)
    (attrs : Option (List (String × String)))
    (h1 : env.isActivityAllowed mt mc = true)
    (h2 : (mc.isEmpty || url.isEmpty) = true) :
    loadExternalScript env io s url mt mc cb? doc? attrs =
      ⟨s, [Event.policyCheck mt mc,
           Event.logError "cannot load external script without url and moduleCode"], .ok none⟩ := by
  unfold loadExternalScript
  simp [h1, h2]

theorem loadExternalScript_not_approved (env : Env) (io : Bool) (s : AdState)
    (url mt mc : String) (cb? : Option Nat) (doc? : Option Ctx)
    (attrs : Option (List (String × String)))
    (h1 : env.isActivityAllowed mt mc = true)
    (h2 : (mc.isEmpty || url.isEmpty) = false)
    (h3 : _approvedLoadExternalJSList.contains mc = false) :
    loadExternalScript env io s url mt mc cb? doc? attrs =
      ⟨s, [Event.policyCheck mt mc,
           Event.logError (mc ++ " not whitelisted for loading external JavaScript")],
        .ok none⟩ := by
  have h3' : mc ∉ _approvedLoadExternalJSList := by simpa using h3
  unfold loadExternalScript
  simp [h1, h2, h3']

/-- Any call that fails one of the three checks returns no handle and
leaves the state untouched. -/
theorem loadExternalScript_rejected (env : Env) (io : Bool) (s : AdState)
    (url mt mc : String) (cb? : Option Nat) (doc? : Option Ctx)
    (attrs : Option (List (String × String)))
    (h : passesChecks env url mt mc = false) :
    (loadExternalScript env io s url mt mc cb? doc? attrs).state = s ∧
      (loadExternalScript env io s url mt mc cb? doc? attrs).ret = .ok none := by
  unfold passesChecks at h
  cases h1 : env.isActivityAllowed mt mc with
  | false => rw [loadExternalScript_policy_denied env io s url mt mc cb? doc? attrs h1]; exact ⟨rfl, rfl⟩
  | true =>
    cases h2 : (mc.isEmpty || url.isEmpty) with
    | true => rw [loadExternalScript_invalid env io s url mt mc cb? doc? attrs h1 h2]; exact ⟨rfl, rfl⟩
    | false =>
      cases h3 : _approvedLoadExternalJSList.contains mc with
      | true => rw [h1, h2, h3] at h; simp at h
      | false =>
        rw [loadExternalScript_not_approved env io s url mt mc cb? doc? attrs h1 h2 h3]
        exact ⟨rfl, rfl⟩

theorem loadExternalScript_join_pending (env : Env) (io : Bool) (s : AdState)
    (url mt mc : String) (cb : Nat) (doc? : Option Ctx)
    (attrs : Option (List (String × String))) (co : CacheObject)
    (h : passesChecks env url mt mc = true)
    (hget : getCacheObject s (doc?.getD 0) url = some co)
    (hl : co.loaded = false) :
    loadExternalScript env io s url mt mc (some cb) doc? attrs =
      ⟨setCacheObject s (doc?.getD 0) url { co with callbacks := co.callbacks ++ [cb] },
        [Event.policyCheck mt mc], .ok co.tag⟩ := by
  obtain ⟨h1, h2, h3⟩ := passesChecks_spec h
  have h3' : mc ∈ _approvedLoadExternalJSList := by simpa using h3
  unfold loadExternalScript
  simp [h1, h2, h3', hget, hl]

theorem loadExternalScript_join_loaded (env : Env) (io : Bool) (s : AdState)
    (url mt mc : String) (cb : Nat) (doc? : Option Ctx)
    (attrs : Option (List (String × String))) (co : CacheObject)
    (h : passesChecks env url mt mc = true)
    (hget : getCacheObject s (doc?.getD 0) url = some co)
    (hl : co.loaded = true)
    (hcb : env.throwsCb cb = false) :
    loadExternalScript env io s url mt mc (some cb) doc? attrs =
      ⟨s, [Event.policyCheck mt mc, Event.invoke cb], .ok co.tag⟩ := by
  obtain ⟨h1, h2, h3⟩ := passesChecks_spec h
  have h3' : mc ∈ _approvedLoadExternalJSList := by simpa using h3
  unfold loadExternalScript
  simp [h1, h2, h3', hget, hl, hcb]

theorem loadExternalScript_join_nocb (env : Env) (io : Bool) (s : AdState)
    (url mt mc : String) (doc? : Option Ctx)
    (attrs : Option (List (String × String))) (co : CacheObject)
    (h : passesChecks env url mt mc = true)
    (hget : getCacheObject s (doc?.getD 0) url = some co) :
    loadExternalScript env io s url mt mc none doc? attrs =
      ⟨s, [Event.policyCheck mt mc], .ok co.tag⟩ := by
  obtain ⟨h1, h2, h3⟩ := passesChecks_spec h
  have h3' : mc ∈ _approvedLoadExternalJSList := by simpa using h3
  unfold loadExternalScript
  simp [h1, h2, h3', hget]

theorem find?_none_of_getCacheObject_none (s : AdState) (d : Ctx) (u : Url)
    (hget : getCacheObject s d u = none) :
    s.cache.find? (fun e => e.1 == (d, u)) = none := by
  unfold getCacheObject at hget
  cases hh : s.cache.find? (fun e => e.1 == (d, u)) with
  | none => rfl
  | some v => rw [hh] at hget; simp at hget

/-- Creating and then updating the fresh `(d, u)` entry produces a state
whose cache is the updated entry consed onto the old cache. -/
theorem create_sets (s : AdState) (d : Ctx) (u : Url) (co0 co1 : CacheObject) (n : Nat)
    (hget : getCacheObject s d u = none) :
    setCacheObject { setCacheObject s d u co0 with nextId := n } d u co1 =
      ⟨((d, u), co1) :: s.cache, n, s.inserted⟩ := by
  have hf := find?_none_of_getCacheObject_none s d u hget
  rw [setCacheObject_not_mem s d u co0 hget]
  unfold setCacheObject
  have hd : ((((d, u), co0) :: s.cache).find? (fun e => e.1 == (d, u))) = some ((d, u), co0) :=
    List.find?_cons_of_pos _ (by simp)
  simp only [hd, Option.isSome_some, if_pos, List.map_cons, if_pos (by simp : ((((d, u), co0).1 == (d, u)) = true)),
    map_update_id s.cache (d, u) co1 hf]

theorem loadExternalScript_create_ok (env : Env) (s : AdState)
    (url mt mc : String) (cb? : Option Nat) (doc? : Option Ctx)
    (attrs : Option (List (String × String)))
    (h : passesChecks env url mt mc = true)
    (hget : getCacheObject s (doc?.getD 0) url = none) :
    loadExternalScript env true s url mt mc cb? doc? attrs =
      ⟨⟨((doc?.getD 0, url),
          ⟨false, some ⟨s.nextId, url, attrs.getD []⟩, cb?.toList⟩) :: s.cache,
         s.nextId + 1, s.inserted ++ [s.nextId]⟩,
        [Event.policyCheck mt mc,
         Event.logWarn ("module " ++ mc ++ " is loading external JavaScript"),
         Event.createScript (doc?.getD 0)] ++ attrEvents attrs ++
          [Event.insertScript (doc?.getD 0) ⟨s.nextId, url, attrs.getD []⟩],
        .ok (some ⟨s.nextId, url, attrs.getD []⟩)⟩ := by
  obtain ⟨h1, h2, h3⟩ := passesChecks_spec h
  have h3' : mc ∈ _approvedLoadExternalJSList := by simpa using h3
  unfold loadExternalScript
  simp only [h1, h2, h3', hget, Bool.not_true, Bool.false_eq_true, if_false, Bool.or_self,
    decide_True, List.elem_eq_mem, decide_eq_true_eq, if_true, ite_true, ite_false]
  rw [create_sets s (doc?.getD 0) url _ _ _ hget]
  cases attrs <;>
    simp [attrEvents, setCacheObject_nextId, setCacheObject_inserted]

theorem loadExternalScript_create_fail (env : Env) (s : AdState)
    (url mt mc : String) (cb? : Option Nat) (doc? : Option Ctx)
    (attrs : Option (List (String × String)))
    (h : passesChecks env url mt mc = true)
    (hget : getCacheObject s (doc?.getD 0) url = none) :
    loadExternalScript env false s url mt mc cb? doc? attrs =
      ⟨⟨((doc?.getD 0, url),
          ⟨false, some ⟨s.nextId, url, attrs.getD []⟩, cb?.toList⟩) :: s.cache,
         s.nextId + 1, s.inserted⟩,
        [Event.policyCheck mt mc,
         Event.logWarn ("module " ++ mc ++ " is loading external JavaScript"),
         Event.createScript (doc?.getD 0)] ++ attrEvents attrs,
        .error ()⟩ := by
  obtain ⟨h1, h2, h3⟩ := passesChecks_spec h
  have h3' : mc ∈ _approvedLoadExternalJSList := by simpa using h3
  unfold loadExternalScript
  simp only [h1, h2, h3', hget, Bool.not_true, Bool.false_eq_true, if_false, Bool.or_self,
    decide_True, List.elem_eq_mem, decide_eq_true_eq, if_true, ite_true, ite_false]
  rw [create_sets s (doc?.getD 0) url _ _ _ hget]
  cases attrs <;>
    simp [attrEvents, setCacheObject_nextId, setCacheObject_inserted]

theorem loadExternalScript_join_loaded_throw (env : Env) (io : Bool) (s : AdState)
    (url mt mc : String) (cb : Nat) (doc? : Option Ctx)
    (attrs : Option (List (String × String))) (co : CacheObject)
    (h : passesChecks env url mt mc = true)
    (hget : getCacheObject s (doc?.getD 0) url = some co)
    (hl : co.loaded = true)
    (hcb : env.throwsCb cb = true) :
    loadExternalScript env io s url mt mc (some cb) doc? attrs =
      ⟨s, [Event.policyCheck mt mc, Event.invoke cb], .error ()⟩ := by
  obtain ⟨h1, h2, h3⟩ := passesChecks_spec h
  have h3' : mc ∈ _approvedLoadExternalJSList := by simpa using h3
  unfold loadExternalScript
  simp [h1, h2, h3', hget, hl, hcb]

theorem getCacheObject_cons_other (c : List ((Ctx × Url) × CacheObject)) (n : Nat)
    (i : List Nat) (d : Ctx) (u : Url) (co : CacheObject) (d' : Ctx) (u' : Url)
    (hne : (d', u') ≠ (d, u)) :
    getCacheObject ⟨((d, u), co) :: c, n, i⟩ d' u' =
      (c.find? (fun e => e.1 == (d', u'))).map (·.2) := by
  unfold getCacheObject
  rw [List.find?_cons_of_neg _ (by simpa using (Ne.symm hne))]

/-- A call only ever touches the cache entry of its own `(document, url)`
pair: every other entry is unchanged. -/
theorem loadExternalScript_frame (env : Env) (io : Bool) (s : AdState)
    (url mt mc : String) (cb? : Option Nat) (doc? : Option Ctx)
    (attrs : Option (List (String × String))) (d' : Ctx) (u' : Url)
    (hne : (d', u') ≠ (doc?.getD 0, url)) :
    getCacheObject (loadExternalScript env io s url mt mc cb? doc? attrs).state d' u' =
      getCacheObject s d' u' := by
  cases hpc : passesChecks env url mt mc with
  | false => rw [(loadExternalScript_rejected env io s url mt mc cb? doc? attrs hpc).1]
  | true =>
    cases hget : getCacheObject s (doc?.getD 0) url with
    | some co =>
      cases cb? with
      | none => rw [loadExternalScript_join_nocb env io s url mt mc doc? attrs co hpc hget]
      | some cb =>
        cases hl : co.loaded with
        | false =>
          rw [loadExternalScript_join_pending env io s url mt mc cb doc? attrs co hpc hget hl]
          exact getCacheObject_set_other s _ url _ d' u' hne
        | true =>
          cases hcb : env.throwsCb cb with
          | false =>
            rw [loadExternalScript_join_loaded env io s url mt mc cb doc? attrs co hpc hget hl hcb]
          | true =>
            rw [loadExternalScript_join_loaded_throw env io s url mt mc cb doc? attrs co hpc hget hl hcb]
    | none =>
      cases io with
      | true =>
        rw [loadExternalScript_create_ok env s url mt mc cb? doc? attrs hpc hget]
        exact getCacheObject_cons_other _ _ _ _ _ _ _ _ hne
      | false =>
        rw [loadExternalScript_create_fail env s url mt mc cb? doc? attrs hpc hget]
        exact getCacheObject_cons_other _ _ _ _ _ _ _ _ hne

theorem markLoaded_none (env : Env) (s : AdState) (d : Ctx) (u : Url)
    (hget : getCacheObject s d u = none) :
    markLoaded env s d u = (s, []) := by
  unfold markLoaded
  rw [hget]

theorem markLoaded_some (env : Env) (s : AdState) (d : Ctx) (u : Url) (co : CacheObject)
    (hget : getCacheObject s d u = some co) :
    markLoaded env s d u =
      (setCacheObject s d u { co with loaded := true }, drainEvents env co.callbacks) := by
  unfold markLoaded
  rw [hget]

/-- The completion handler only touches its own entry. -/
theorem markLoaded_frame (env : Env) (s : AdState) (d : Ctx) (u : Url)
    (d' : Ctx) (u' : Url) (hne : (d', u') ≠ (d, u)) :
    getCacheObject (markLoaded env s d u).1 d' u' = getCacheObject s d' u' := by
  cases hget : getCacheObject s d u with
  | none => rw [markLoaded_none env s d u hget]
  | some co =>
    rw [markLoaded_some env s d u co hget]
    exact getCacheObject_set_other s d u _ d' u' hne

theorem markLoaded_nextId (env : Env) (s : AdState) (d : Ctx) (u : Url) :
    (markLoaded env s d u).1.nextId = s.nextId := by
  cases hget : getCacheObject s d u with
  | none => rw [markLoaded_none env s d u hget]
  | some co => rw [markLoaded_some env s d u co hget]; exact setCacheObject_nextId _ _ _ _

theorem markLoaded_inserted (env : Env) (s : AdState) (d : Ctx) (u : Url) :
    (markLoaded env s d u).1.inserted = s.inserted := by
  cases hget : getCacheObject s d u with
  | none => rw [markLoaded_none env s d u hget]
  | some co => rw [markLoaded_some env s d u co hget]; exact setCacheObject_inserted _ _ _ _

/-! ### Drain lemmas -/

theorem drainEvents_ok (env : Env) (l : List Nat)
    (h : ∀ x ∈ l, env.throwsCb x = false) :
    drainEvents env l = l.map Event.invoke := by
  induction l with
  | nil => rfl
  | cons c rest ih =>
    have hc : env.throwsCb c = false := h c (List.mem_cons_self c rest)
    unfold drainEvents
    rw [hc]
    simp only [Bool.false_eq_true, if_false, List.map_cons]
    rw [ih (fun x hx => h x (List.mem_cons_of_mem c hx))]

theorem drainEvents_throw (env : Env) (l1 : List Nat) (c : Nat) (l2 : List Nat)
    (h1 : ∀ x ∈ l1, env.throwsCb x = false) (hc : env.throwsCb c = true) :
    drainEvents env (l1 ++ c :: l2) =
      l1.map Event.invoke ++ [Event.invoke c, Event.logError "Error executing callback"] := by
  induction l1 with
  | nil =>
    rw [List.nil_append]
    simp [drainEvents, hc]
  | cons a rest ih =>
    have ha : env.throwsCb a = false := h1 a (List.mem_cons_self a rest)
    rw [List.cons_append]
    simp only [drainEvents, ha, Bool.false_eq_true, if_false, List.map_cons, List.cons_append]
    rw [ih (fun x hx => h1 x (List.mem_cons_of_mem a hx))]

theorem mem_drainEvents (env : Env) (l : List Nat) (e : Event) (he : e ∈ drainEvents env l) :
    (∃ c, e = Event.invoke c ∧ c ∈ l) ∨ e = Event.logError "Error executing callback" := by
  induction l with
  | nil => simp [drainEvents] at he
  | cons c rest ih =>
    unfold drainEvents at he
    cases hc : env.throwsCb c with
    | true =>
      rw [hc] at he
      simp only [if_true, List.mem_cons, List.mem_singleton, List.not_mem_nil, or_false] at he
      rcases he with he | he
      · exact Or.inl ⟨c, he, by simp⟩
      · exact Or.inr he
    | false =>
      rw [hc] at he
      simp only [Bool.false_eq_true, if_false, List.mem_cons] at he
      rcases he with he | he
      · exact Or.inl ⟨c, he, by simp⟩
      · rcases ih he with ⟨c', he', hc'⟩ | he'
        · exact Or.inl ⟨c', he', List.mem_cons_of_mem c hc'⟩
        · exact Or.inr he'

/-! ### Claim theorems -/

/-- C3: if `loadExternalScript` is called with a callback for a
`(context, url)` whose entry is already loaded, the callback is invoked
exactly once, synchronously within the call (its events are exactly the
policy check followed by the single invocation), and the registry is not
mutated — in particular the callback is not appended to the entry's
callbacks list. -/
theorem C3_loaded_entry_fires_immediately (env : Env) (io : Bool) (s : AdState)
    (url mt mc : String) (cb : Nat) (doc? : Option Ctx)
    (attrs : Option (List (String × String))) (co : CacheObject)
    (h : passesChecks env url mt mc = true)
    (hget : getCacheObject s (doc?.getD 0) url = some co)
    (hl : co.loaded = true) :
    (loadExternalScript env io s url mt mc (some cb) doc? attrs).events =
        [Event.policyCheck mt mc, Event.invoke cb] ∧
      (loadExternalScript env io s url mt mc (some cb) doc? attrs).state = s := by
  cases hcb : env.throwsCb cb with
  | false =>
    rw [loadExternalScript_join_loaded env io s url mt mc cb doc? attrs co h hget hl hcb]
    exact ⟨rfl, rfl⟩
  | true =>
    rw [loadExternalScript_join_loaded_throw env io s url mt mc cb doc? attrs co h hget hl hcb]
    exact ⟨rfl, rfl⟩

theorem C3_witness :
    passesChecks envOK "foo.js" "rtd" "debugging" = true ∧
      getCacheObject ⟨[((0, "foo.js"), ⟨true, some ⟨0, "foo.js", []⟩, []⟩)], 1, [0]⟩ 0 "foo.js" =
        some ⟨true, some ⟨0, "foo.js", []⟩, []⟩ ∧
      (loadExternalScript envOK true ⟨[((0, "foo.js"), ⟨true, some ⟨0, "foo.js", []⟩, []⟩)], 1, [0]⟩
          "foo.js" "rtd" "debugging" (some 7) none none).events =
        [Event.policyCheck "rtd" "debugging", Event.invoke 7] := by
  refine ⟨by decide, by decide, ?_⟩
  exact (C3_loaded_entry_fires_immediately envOK true
    ⟨[((0, "foo.js"), ⟨true, some ⟨0, "foo.js", []⟩, []⟩)], 1, [0]⟩
    "foo.js" "rtd" "debugging" 7 none none ⟨true, some ⟨0, "foo.js", []⟩, []⟩
    (by decide) (by decide) rfl).1

/-- C4 counterexample: with callback `1` throwing and callback `2` queued
after it, the completion drain stops at the throw — callback `2` is never
invoked, so a throwing callback does abort the drain of the callbacks
registered after it, contrary to the claim. -/
theorem C4_counterexample :
    (markLoaded envThrow1 ⟨[((0, "foo.js"), ⟨false, some ⟨0, "foo.js", []⟩, [1, 2]⟩)], 1, [0]⟩
        0 "foo.js").2 =
      [Event.invoke 1, Event.logError "Error executing callback"] ∧
    Event.invoke 2 ∉
      (markLoaded envThrow1 ⟨[((0, "foo.js"), ⟨false, some ⟨0, "foo.js", []⟩, [1, 2]⟩)], 1, [0]⟩
        0 "foo.js").2 := by
  constructor
  · rfl
  · decide

/-- C4 (amended): the whole drain runs inside one `try`: when a queued
callback throws, the exception is caught and logged once for the drain,
and the entry is still marked loaded, but the callbacks queued after the
throwing one are not invoked — the drain is aborted at the throwing
callback. -/
theorem C4_amended_drain_aborts_at_throw (env : Env) (s : AdState) (d : Ctx) (u : Url)
    (co : CacheObject) (l1 : List Nat) (c : Nat) (l2 : List Nat)
    (hget : getCacheObject s d u = some co)
    (hcb : co.callbacks = l1 ++ c :: l2)
    (h1 : ∀ x ∈ l1, env.throwsCb x = false)
    (hc : env.throwsCb c = true) :
    (markLoaded env s d u).2 =
        l1.map Event.invoke ++ [Event.invoke c, Event.logError "Error executing callback"] ∧
      getCacheObject (markLoaded env s d u).1 d u = some { co with loaded := true } := by
  rw [markLoaded_some env s d u co hget]
  refine ⟨?_, getCacheObject_set_same s d u _⟩
  simp only
  rw [hcb, drainEvents_throw env l1 c l2 h1 hc]

theorem C4_amended_witness :
    getCacheObject ⟨[((0, "foo.js"), ⟨false, some ⟨0, "foo.js", []⟩, [3, 1, 2]⟩)], 1, [0]⟩
        0 "foo.js" = some ⟨false, some ⟨0, "foo.js", []⟩, [3, 1, 2]⟩ ∧
      envThrow1.throwsCb 1 = true ∧
      (markLoaded envThrow1 ⟨[((0, "foo.js"), ⟨false, some ⟨0, "foo.js", []⟩, [3, 1, 2]⟩)], 1, [0]⟩
          0 "foo.js").2 =
        [Event.invoke 3, Event.invoke 1, Event.logError "Error executing callback"] := by
  refine ⟨by decide, by decide, ?_⟩
  exact (C4_amended_drain_aborts_at_throw envThrow1
    ⟨[((0, "foo.js"), ⟨false, some ⟨0, "foo.js", []⟩, [3, 1, 2]⟩)], 1, [0]⟩ 0 "foo.js"
    ⟨false, some ⟨0, "foo.js", []⟩, [3, 1, 2]⟩ [3] 1 [2]
    (by decide) rfl (by decide) (by decide)).1

/-- C5 counterexample: the completion handler does not clear the
callbacks list, so invoking it a second time for the same entry re-fires
the queued callback — contradicting the claim that a second invocation
fires no callbacks. -/
theorem C5_counterexample :
    (markLoaded envOK ⟨[((0, "foo.js"), ⟨false, some ⟨0, "foo.js", []⟩, [1]⟩)], 1, [0]⟩
        0 "foo.js").2 = [Event.invoke 1] ∧
      (markLoaded envOK
          (markLoaded envOK ⟨[((0, "foo.js"), ⟨false, some ⟨0, "foo.js", []⟩, [1]⟩)], 1, [0]⟩
            0 "foo.js").1 0 "foo.js").2 = [Event.invoke 1] := by
  constructor
  · rfl
  · rfl

/-- C5 (amended): the completion handler sets `loaded := true` and drains
the queued callbacks, but leaves the callbacks list in place (the entry
after the drain is exactly the old entry with `loaded := true`); a second
invocation of the handler for the same entry therefore re-fires exactly
the same callbacks, emitting the same events as the first.  Idempotency
relies solely on the environment firing the completion signal at most
once per element. -/
theorem C5_amended_callbacks_not_cleared (env : Env) (s : AdState) (d : Ctx) (u : Url)
    (co : CacheObject) (hget : getCacheObject s d u = some co) :
    getCacheObject (markLoaded env s d u).1 d u = some { co with loaded := true } ∧
      (markLoaded env (markLoaded env s d u).1 d u).2 = (markLoaded env s d u).2 := by
  have h1 := markLoaded_some env s d u co hget
  have hget2 : getCacheObject (markLoaded env s d u).1 d u = some { co with loaded := true } := by
    rw [h1]
    exact getCacheObject_set_same s d u _
  refine ⟨hget2, ?_⟩
  rw [markLoaded_some env _ d u _ hget2, h1]

theorem C5_amended_witness :
    getCacheObject ⟨[((0, "foo.js"), ⟨false, some ⟨0, "foo.js", []⟩, [4, 5]⟩)], 1, [0]⟩
        0 "foo.js" = some ⟨false, some ⟨0, "foo.js", []⟩, [4, 5]⟩ ∧
      getCacheObject
          (markLoaded envOK ⟨[((0, "foo.js"), ⟨false, some ⟨0, "foo.js", []⟩, [4, 5]⟩)], 1, [0]⟩
            0 "foo.js").1 0 "foo.js" = some ⟨true, some ⟨0, "foo.js", []⟩, [4, 5]⟩ := by
  refine ⟨by decide, ?_⟩
  exact (C5_amended_callbacks_not_cleared envOK
    ⟨[((0, "foo.js"), ⟨false, some ⟨0, "foo.js", []⟩, [4, 5]⟩)], 1, [0]⟩ 0 "foo.js"
    ⟨false, some ⟨0, "foo.js", []⟩, [4, 5]⟩ (by decide)).1

/-- C6 counterexample: calling with an empty `url` still consults the
policy gate (the policy-check event is emitted), and when the policy gate
denies such a call no validation error is logged at all — the policy
check precedes validation, contrary to the claim. -/
theorem C6_counterexample :
    Event.policyCheck "rtd" "debugging" ∈
        (loadExternalScript envOK true AdState.init "" "rtd" "debugging" none none none).events ∧
      (loadExternalScript envDeny true AdState.init "" "rtd" "debugging" none none none).events =
        [Event.policyCheck "rtd" "debugging"] := by
  constructor
  · decide
  · rfl

/-- Every call consults the policy gate first: the first event of any
`loadExternalScript` call is the policy check. -/
theorem events_head_policyCheck (env : Env) (io : Bool) (s : AdState)
    (url mt mc : String) (cb? : Option Nat) (doc? : Option Ctx)
    (attrs : Option (List (String × String))) :
    (loadExternalScript env io s url mt mc cb? doc? attrs).events.head? =
      some (Event.policyCheck mt mc) := by
  cases h1 : env.isActivityAllowed mt mc with
  | false => rw [loadExternalScript_policy_denied env io s url mt mc cb? doc? attrs h1]; rfl
  | true =>
    cases h2 : (mc.isEmpty || url.isEmpty) with
    | true => rw [loadExternalScript_invalid env io s url mt mc cb? doc? attrs h1 h2]; rfl
    | false =>
      cases h3 : _approvedLoadExternalJSList.contains mc with
      | false => rw [loadExternalScript_not_approved env io s url mt mc cb? doc? attrs h1 h2 h3]; rfl
      | true =>
        have hpc : passesChecks env url mt mc = true := by
          unfold passesChecks; rw [h1, h2, h3]; rfl
        cases hget : getCacheObject s (doc?.getD 0) url with
        | some co =>
          cases cb? with
          | none => rw [loadExternalScript_join_nocb env io s url mt mc doc? attrs co hpc hget]; rfl
          | some cb =>
            cases hl : co.loaded with
            | false =>
              rw [loadExternalScript_join_pending env io s url mt mc cb doc? attrs co hpc hget hl]
              rfl
            | true =>
              cases hcb : env.throwsCb cb with
              | false =>
                rw [loadExternalScript_join_loaded env io s url mt mc cb doc? attrs co hpc hget hl hcb]
                rfl
              | true =>
                rw [loadExternalScript_join_loaded_throw env io s url mt mc cb doc? attrs co hpc
                  hget hl hcb]
                rfl
        | none =>
          cases io with
          | true => rw [loadExternalScript_create_ok env s url mt mc cb? doc? attrs hpc hget]; rfl
          | false => rw [loadExternalScript_create_fail env s url mt mc cb? doc? attrs hpc hget]; rfl

/-- C6 (amended): the Policy Gate check precedes input validation, not
the other way round: every call consults `isActivityAllowed` first (the
policy-check event heads the trace of every call), and a call with empty
`url` or `moduleCode` that passes the policy gate is rejected with a
logged error, no state change and no handle. -/
theorem C6_amended_policy_gate_precedes_validation (env : Env) (io : Bool) (s : AdState)
    (url mt mc : String) (cb? : Option Nat) (doc? : Option Ctx)
    (attrs : Option (List (String × String)))
    (h1 : env.isActivityAllowed mt mc = true)
    (h2 : (mc.isEmpty || url.isEmpty) = true) :
    loadExternalScript env io s url mt mc cb? doc? attrs =
        ⟨s, [Event.policyCheck mt mc,
             Event.logError "cannot load external script without url and moduleCode"], .ok none⟩ ∧
      ∀ (env' : Env) (io' : Bool) (s' : AdState) (url' mt' mc' : String)
        (cb?' : Option Nat) (doc?' : Option Ctx) (attrs' : Option (List (String × String))),
        (loadExternalScript env' io' s' url' mt' mc' cb?' doc?' attrs').events.head? =
          some (Event.policyCheck mt' mc') := by
  refine ⟨loadExternalScript_invalid env io s url mt mc cb? doc? attrs h1 h2, ?_⟩
  intro env' io' s' url' mt' mc' cb?' doc?' attrs'
  exact events_head_policyCheck env' io' s' url' mt' mc' cb?' doc?' attrs'

theorem C6_amended_witness :
    envOK.isActivityAllowed "rtd" "debugging" = true ∧
      ("debugging".isEmpty || "".isEmpty) = true ∧
      (loadExternalScript envOK true AdState.init "" "rtd" "debugging" none none none).events =
        [Event.policyCheck "rtd" "debugging",
         Event.logError "cannot load external script without url and moduleCode"] := by
  refine ⟨by decide, by decide, ?_⟩
  rw [(C6_amended_policy_gate_precedes_validation envOK true AdState.init "" "rtd" "debugging"
    none none none (by decide) (by decide)).1]

theorem getCacheObject_cons_self (c : List ((Ctx × Url) × CacheObject)) (n : Nat)
    (i : List Nat) (d : Ctx) (u : Url) (co : CacheObject) :
    getCacheObject ⟨((d, u), co) :: c, n, i⟩ d u = some co := by
  unfold getCacheObject
  rw [List.find?_cons_of_pos _ (by simp)]
  rfl

theorem getCacheObject_mem (s : AdState) (d : Ctx) (u : Url) (co : CacheObject)
    (h : getCacheObject s d u = some co) : ((d, u), co) ∈ s.cache := by
  unfold getCacheObject at h
  cases hf : s.cache.find? (fun e => e.1 == (d, u)) with
  | none => rw [hf] at h; simp at h
  | some e =>
    rw [hf] at h
    have he1 : e.1 = (d, u) := by simpa using List.find?_some hf
    have he2 : e.2 = co := by simpa using h
    have : e = ((d, u), co) := by
      cases e with
      | mk k v => simp only at he1 he2; rw [he1, he2]
    rw [← this]
    exact List.mem_of_find?_eq_some hf

/-- C8: attributes are applied to the script element exactly once, by
the entry-creating request only.  Whenever an entry already exists for
`(context, url)`, a further call never emits an attribute-application
event and leaves the entry's element (hence its attributes) unchanged;
the entry-creating request with attributes `a` applies them exactly once
and the stored element carries exactly those attributes. -/
theorem C8_attributes_applied_once_by_winner (env : Env) (io : Bool) (s : AdState)
    (url mt mc : String) (cb? : Option Nat) (doc? : Option Ctx)
    (attrs : Option (List (String × String))) :
    (∀ co, getCacheObject s (doc?.getD 0) url = some co →
      (loadExternalScript env io s url mt mc cb? doc? attrs).events.countP
          Event.isApplyAttributes = 0 ∧
        (getCacheObject (loadExternalScript env io s url mt mc cb? doc? attrs).state
            (doc?.getD 0) url).map CacheObject.tag = some co.tag) ∧
    (∀ a, getCacheObject s (doc?.getD 0) url = none →
      passesChecks env url mt mc = true → attrs = some a →
      (loadExternalScript env io s url mt mc cb? doc? attrs).events.countP
          Event.isApplyAttributes = 1 ∧
        getCacheObject (loadExternalScript env io s url mt mc cb? doc? attrs).state
            (doc?.getD 0) url =
          some ⟨false, some ⟨s.nextId, url, a⟩, cb?.toList⟩) := by
  constructor
  · intro co hget
    cases h1 : env.isActivityAllowed mt mc with
    | false =>
      rw [loadExternalScript_policy_denied env io s url mt mc cb? doc? attrs h1]
      exact ⟨rfl, by rw [hget]; rfl⟩
    | true =>
      cases h2 : (mc.isEmpty || url.isEmpty) with
      | true =>
        rw [loadExternalScript_invalid env io s url mt mc cb? doc? attrs h1 h2]
        exact ⟨rfl, by rw [hget]; rfl⟩
      | false =>
        cases h3 : _approvedLoadExternalJSList.contains mc with
        | false =>
          rw [loadExternalScript_not_approved env io s url mt mc cb? doc? attrs h1 h2 h3]
          exact ⟨rfl, by rw [hget]; rfl⟩
        | true =>
          have hpc : passesChecks env url mt mc = true := by
            unfold passesChecks; rw [h1, h2, h3]; rfl
          cases cb? with
          | none =>
            rw [loadExternalScript_join_nocb env io s url mt mc doc? attrs co hpc hget]
            exact ⟨rfl, by rw [hget]; rfl⟩
          | some cb =>
            cases hl : co.loaded with
            | false =>
              rw [loadExternalScript_join_pending env io s url mt mc cb doc? attrs co hpc hget hl]
              refine ⟨rfl, ?_⟩
              rw [getCacheObject_set_same]
              rfl
            | true =>
              cases hcb : env.throwsCb cb with
              | false =>
                rw [loadExternalScript_join_loaded env io s url mt mc cb doc? attrs co hpc hget
                  hl hcb]
                exact ⟨rfl, by rw [hget]; rfl⟩
              | true =>
                rw [loadExternalScript_join_loaded_throw env io s url mt mc cb doc? attrs co hpc
                  hget hl hcb]
                exact ⟨rfl, by rw [hget]; rfl⟩
  · intro a hget hpc ha
    subst ha
    cases io with
    | true =>
      rw [loadExternalScript_create_ok env s url mt mc cb? doc? (some a) hpc hget]
      exact ⟨rfl, getCacheObject_cons_self _ _ _ _ _ _⟩
    | false =>
      rw [loadExternalScript_create_fail env s url mt mc cb? doc? (some a) hpc hget]
      exact ⟨rfl, getCacheObject_cons_self _ _ _ _ _ _⟩

theorem C8_witness :
    (getCacheObject ⟨[((0, "foo.js"), ⟨false, some ⟨0, "foo.js", [("k", "v")]⟩, [1]⟩)], 1, [0]⟩
          0 "foo.js" = some ⟨false, some ⟨0, "foo.js", [("k", "v")]⟩, [1]⟩ ∧
      (loadExternalScript envOK true
          ⟨[((0, "foo.js"), ⟨false, some ⟨0, "foo.js", [("k", "v")]⟩, [1]⟩)], 1, [0]⟩
          "foo.js" "rtd" "debugging" (some 2) none (some [("x", "y")])).events.countP
        Event.isApplyAttributes = 0) ∧
    (getCacheObject AdState.init 0 "foo.js" = none ∧
      (loadExternalScript envOK true AdState.init "foo.js" "rtd" "debugging" (some 2) none
          (some [("x", "y")])).events.countP Event.isApplyAttributes = 1) := by
  constructor
  · refine ⟨by decide, ?_⟩
    exact ((C8_attributes_applied_once_by_winner envOK true
      ⟨[((0, "foo.js"), ⟨false, some ⟨0, "foo.js", [("k", "v")]⟩, [1]⟩)], 1, [0]⟩
      "foo.js" "rtd" "debugging" (some 2) none (some [("x", "y")])).1
      ⟨false, some ⟨0, "foo.js", [("k", "v")]⟩, [1]⟩ (by decide)).1
  · refine ⟨by decide, ?_⟩
    exact ((C8_attributes_applied_once_by_winner envOK true AdState.init
      "foo.js" "rtd" "debugging" (some 2) none (some [("x", "y")])).2
      [("x", "y")] (by decide) (by decide) rfl).1

/-- C7: a call failing validation, the policy gate or the allow-list
returns no handle and leaves the registry untouched; after such a
rejection an approved call for the same url still performs a fresh load
(the entry is created and the element inserted); and a call passing all
three checks always returns a handle, even while the load is pending. -/
theorem C7_rejected_no_sideeffects_passing_returns_handle (env : Env) (s : AdState)
    (url mt mc : String) (cb? : Option Nat) (doc? : Option Ctx)
    (attrs : Option (List (String × String))) :
    (∀ io, passesChecks env url mt mc = false →
      (loadExternalScript env io s url mt mc cb? doc? attrs).ret = .ok none ∧
        (loadExternalScript env io s url mt mc cb? doc? attrs).state = s) ∧
    (∀ (io : Bool) (mt' mc' : String) (cb?' : Option Nat)
        (attrs' : Option (List (String × String))),
      passesChecks env url mt mc = false →
      passesChecks env url mt' mc' = true →
      getCacheObject s (doc?.getD 0) url = none →
      (loadExternalScript env true (loadExternalScript env io s url mt mc cb? doc? attrs).state
            url mt' mc' cb?' doc? attrs').ret = .ok (some ⟨s.nextId, url, attrs'.getD []⟩) ∧
        Event.insertScript (doc?.getD 0) ⟨s.nextId, url, attrs'.getD []⟩ ∈
          (loadExternalScript env true (loadExternalScript env io s url mt mc cb? doc? attrs).state
            url mt' mc' cb?' doc? attrs').events) ∧
    (passesChecks env url mt mc = true → tagsSet s →
      (∀ cb, cb? = some cb → env.throwsCb cb = false) →
      ∃ t, (loadExternalScript env true s url mt mc cb? doc? attrs).ret = .ok (some t)) := by
  refine ⟨?_, ?_, ?_⟩
  · intro io hpc
    exact ⟨(loadExternalScript_rejected env io s url mt mc cb? doc? attrs hpc).2,
      (loadExternalScript_rejected env io s url mt mc cb? doc? attrs hpc).1⟩
  · intro io mt' mc' cb?' attrs' hpc hpc' hget
    rw [(loadExternalScript_rejected env io s url mt mc cb? doc? attrs hpc).1]
    rw [loadExternalScript_create_ok env s url mt' mc' cb?' doc? attrs' hpc' hget]
    refine ⟨rfl, ?_⟩
    simp
  · intro hpc hts hcb
    cases hget : getCacheObject s (doc?.getD 0) url with
    | none =>
      refine ⟨⟨s.nextId, url, attrs.getD []⟩, ?_⟩
      rw [loadExternalScript_create_ok env s url mt mc cb? doc? attrs hpc hget]
    | some co =>
      have hmem := getCacheObject_mem s (doc?.getD 0) url co hget
      have htag : ∃ t, co.tag = some t := by
        have := hts _ hmem
        simpa [Option.isSome_iff_exists] using this
      obtain ⟨t, ht⟩ := htag
      refine ⟨t, ?_⟩
      cases cb? with
      | none =>
        rw [loadExternalScript_join_nocb env true s url mt mc doc? attrs co hpc hget, ht]
      | some cb =>
        have hcb' : env.throwsCb cb = false := hcb cb rfl
        cases hl : co.loaded with
        | false =>
          rw [loadExternalScript_join_pending env true s url mt mc cb doc? attrs co hpc hget hl, ht]
        | true =>
          rw [loadExternalScript_join_loaded env true s url mt mc cb doc? attrs co hpc hget hl
            hcb', ht]

theorem C7_witness :
    (passesChecks envOK "foo.js" "rtd" "not-approved" = false ∧
      (loadExternalScript envOK true AdState.init "foo.js" "rtd" "not-approved" (some 1) none
          none).ret = .ok none ∧
      (loadExternalScript envOK true AdState.init "foo.js" "rtd" "not-approved" (some 1) none
          none).state = AdState.init) ∧
    (passesChecks envOK "foo.js" "rtd" "debugging" = true ∧
      (loadExternalScript envOK true
          (loadExternalScript envOK true AdState.init "foo.js" "rtd" "not-approved" (some 1) none
            none).state "foo.js" "rtd" "debugging" (some 2) none none).ret =
        .ok (some ⟨0, "foo.js", []⟩)) ∧
    (∃ t, (loadExternalScript envOK true AdState.init "foo.js" "rtd" "debugging" (some 1) none
        none).ret = .ok (some t)) := by
  refine ⟨?_, ?_, ?_⟩
  · have h := (C7_rejected_no_sideeffects_passing_returns_handle envOK AdState.init "foo.js"
      "rtd" "not-approved" (some 1) none none).1 true (by decide)
    exact ⟨by decide, h.1, h.2⟩
  · have h := (C7_rejected_no_sideeffects_passing_returns_handle envOK AdState.init "foo.js"
      "rtd" "not-approved" (some 1) none none).2.1 true "rtd" "debugging" (some 2) none
      (by decide) (by decide) (by decide)
    exact ⟨by decide, h.1⟩
  · exact (C7_rejected_no_sideeffects_passing_returns_handle envOK AdState.init "foo.js"
      "rtd" "debugging" (some 1) none none).2.2 (by decide)
      (by intro e he; simp [AdState.init] at he)
      (fun cb h => by injection h with h'; subst h'; decide)

/-- C9: contexts are fully isolated.  Requesting the same url in two
different documents creates two independent entries holding two distinct
script elements and performs two separate insertions; and no call ever
reads or writes the cache entries of a document other than its own. -/
theorem C9_contexts_isolated (env : Env) (s : AdState) (url mt mc : String)
    (cb?1 cb?2 : Option Nat) (attrs1 attrs2 : Option (List (String × String)))
    (d1 d2 : Ctx) (hne12 : d1 ≠ d2)
    (h : passesChecks env url mt mc = true)
    (hg1 : getCacheObject s d1 url = none)
    (hg2 : getCacheObject s d2 url = none) :
    getCacheObject (loadExternalScript env true
          (loadExternalScript env true s url mt mc cb?1 (some d1) attrs1).state
          url mt mc cb?2 (some d2) attrs2).state d1 url =
        some ⟨false, some ⟨s.nextId, url, attrs1.getD []⟩, cb?1.toList⟩ ∧
      getCacheObject (loadExternalScript env true
          (loadExternalScript env true s url mt mc cb?1 (some d1) attrs1).state
          url mt mc cb?2 (some d2) attrs2).state d2 url =
        some ⟨false, some ⟨s.nextId + 1, url, attrs2.getD []⟩, cb?2.toList⟩ ∧
      Event.insertScript d1 ⟨s.nextId, url, attrs1.getD []⟩ ∈
        (loadExternalScript env true s url mt mc cb?1 (some d1) attrs1).events ∧
      Event.insertScript d2 ⟨s.nextId + 1, url, attrs2.getD []⟩ ∈
        (loadExternalScript env true
          (loadExternalScript env true s url mt mc cb?1 (some d1) attrs1).state
          url mt mc cb?2 (some d2) attrs2).events ∧
      (∀ (io : Bool) (u' mt' mc' : String) (cb?' : Option Nat) (doc?' : Option Ctx)
          (attrs' : Option (List (String × String))) (d' : Ctx) (u'' : Url),
        d' ≠ doc?'.getD 0 →
        getCacheObject (loadExternalScript env io s u' mt' mc' cb?' doc?' attrs').state d' u'' =
          getCacheObject s d' u'') := by
  have hg1' : getCacheObject s ((some d1).getD 0) url = none := hg1
  rw [loadExternalScript_create_ok env s url mt mc cb?1 (some d1) attrs1 h hg1']
  simp only [Option.getD_some]
  have hg2' : getCacheObject
      (⟨((d1, url), ⟨false, some ⟨s.nextId, url, attrs1.getD []⟩, cb?1.toList⟩) :: s.cache,
        s.nextId + 1, s.inserted ++ [s.nextId]⟩ : AdState) ((some d2).getD 0) url = none := by
    simp only [Option.getD_some]
    rw [getCacheObject_cons_other s.cache _ _ d1 url _ d2 url
      (by simp [Prod.ext_iff]; exact fun hh => absurd hh.symm hne12)]
    exact hg2
  rw [loadExternalScript_create_ok env _ url mt mc cb?2 (some d2) attrs2 h hg2']
  simp only [Option.getD_some]
  refine ⟨?_, ?_, ?_, ?_, ?_⟩
  · rw [getCacheObject_cons_other _ _ _ d2 url _ d1 url
      (by simp [Prod.ext_iff]; exact fun hh => absurd hh hne12)]
    exact getCacheObject_cons_self s.cache 0 [] d1 url _
  · exact getCacheObject_cons_self _ _ _ d2 url _
  · simp
  · simp
  · intro io u' mt' mc' cb?' doc?' attrs' d' u'' hd
    exact loadExternalScript_frame env io s u' mt' mc' cb?' doc?' attrs' d' u''
      (fun hp => hd (congrArg Prod.fst hp))

theorem C9_witness :
    (0 : Ctx) ≠ (1 : Ctx) ∧
      passesChecks envOK "foo.js" "rtd" "debugging" = true ∧
      getCacheObject AdState.init 0 "foo.js" = none ∧
      getCacheObject AdState.init 1 "foo.js" = none ∧
      getCacheObject (loadExternalScript envOK true
          (loadExternalScript envOK true AdState.init "foo.js" "rtd" "debugging" (some 1)
            (some 0) none).state
          "foo.js" "rtd" "debugging" (some 2) (some 1) none).state 0 "foo.js" =
        some ⟨false, some ⟨0, "foo.js", []⟩, [1]⟩ ∧
      getCacheObject (loadExternalScript envOK true
          (loadExternalScript envOK true AdState.init "foo.js" "rtd" "debugging" (some 1)
            (some 0) none).state
          "foo.js" "rtd" "debugging" (some 2) (some 1) none).state 1 "foo.js" =
        some ⟨false, some ⟨1, "foo.js", []⟩, [2]⟩ := by
  have h := C9_contexts_isolated envOK AdState.init "foo.js" "rtd" "debugging"
    (some 1) (some 2) none none 0 1 (by decide) (by decide) (by decide) (by decide)
  exact ⟨by decide, by decide, by decide, by decide, h.1, h.2.1⟩

/-- Running any sequence of passing calls against an existing pending
entry only appends the calls' callbacks, in order; every call returns
the entry's existing element and no element is created, inserted or
invoked along the way. -/
theorem runCalls_join (env : Env) (url : String) (doc? : Option Ctx) :
    ∀ (specs : List CallSpec) (s : AdState) (co : CacheObject),
    getCacheObject s (doc?.getD 0) url = some co → co.loaded = false →
    (∀ c ∈ specs, passesChecks env url c.mt c.mc = true) →
    getCacheObject (runCalls env url doc? s specs).1 (doc?.getD 0) url =
        some { co with callbacks := co.callbacks ++ specs.filterMap CallSpec.cb? } ∧
      (runCalls env url doc? s specs).2.2 = specs.map (fun _ => Except.ok co.tag) ∧
      (∀ e ∈ (runCalls env url doc? s specs).2.1,
        e.isInvoke = false ∧ e.isInsert = false ∧ e.isCreate = false) := by
  intro specs
  induction specs with
  | nil =>
    intro s co hget hl _
    refine ⟨?_, rfl, ?_⟩
    · simpa [runCalls] using hget
    · intro e he
      simp [runCalls] at he
  | cons c rest ih =>
    intro s co hget hl hpass
    have hc := hpass c (List.mem_cons_self c rest)
    have hrest := fun x hx => hpass x (List.mem_cons_of_mem c hx)
    cases hcb : c.cb? with
    | some cb =>
      have hstep := loadExternalScript_join_pending env true s url c.mt c.mc cb doc? c.attrs co
        hc hget hl
      have hget' : getCacheObject
          (loadExternalScript env true s url c.mt c.mc c.cb? doc? c.attrs).state
          (doc?.getD 0) url = some { co with callbacks := co.callbacks ++ [cb] } := by
        rw [hcb, hstep]
        exact getCacheObject_set_same _ _ _ _
      obtain ⟨ih1, ih2, ih3⟩ := ih
        (loadExternalScript env true s url c.mt c.mc c.cb? doc? c.attrs).state
        { co with callbacks := co.callbacks ++ [cb] } hget' hl hrest
      refine ⟨?_, ?_, ?_⟩
      · show getCacheObject (runCalls env url doc?
          (loadExternalScript env true s url c.mt c.mc c.cb? doc? c.attrs).state rest).1
          (doc?.getD 0) url = _
        rw [ih1]
        simp [hcb, List.filterMap_cons]
      · show (loadExternalScript env true s url c.mt c.mc c.cb? doc? c.attrs).ret ::
          (runCalls env url doc?
            (loadExternalScript env true s url c.mt c.mc c.cb? doc? c.attrs).state rest).2.2 = _
        rw [ih2, hcb, hstep]
        simp
      · intro e he
        show _
        simp only [runCalls, List.mem_append] at he
        rcases he with he | he
        · rw [hcb, hstep] at he
          simp only [List.mem_singleton] at he
          subst he
          exact ⟨rfl, rfl, rfl⟩
        · exact ih3 e he
    | none =>
      have hstep := loadExternalScript_join_nocb env true s url c.mt c.mc doc? c.attrs co hc hget
      have hget' : getCacheObject
          (loadExternalScript env true s url c.mt c.mc c.cb? doc? c.attrs).state
          (doc?.getD 0) url = some co := by
        rw [hcb, hstep]
        exact hget
      obtain ⟨ih1, ih2, ih3⟩ := ih
        (loadExternalScript env true s url c.mt c.mc c.cb? doc? c.attrs).state co hget' hl hrest
      refine ⟨?_, ?_, ?_⟩
      · show getCacheObject (runCalls env url doc?
          (loadExternalScript env true s url c.mt c.mc c.cb? doc? c.attrs).state rest).1
          (doc?.getD 0) url = _
        rw [ih1]
        simp [hcb, List.filterMap_cons]
      · show (loadExternalScript env true s url c.mt c.mc c.cb? doc? c.attrs).ret ::
          (runCalls env url doc?
            (loadExternalScript env true s url c.mt c.mc c.cb? doc? c.attrs).state rest).2.2 = _
        rw [ih2, hcb, hstep]
        simp
      · intro e he
        simp only [runCalls, List.mem_append] at he
        rcases he with he | he
        · rw [hcb, hstep] at he
          simp only [List.mem_singleton] at he
          subst he
          exact ⟨rfl, rfl, rfl⟩
        · exact ih3 e he

/-- C2: callbacks registered while the entry is pending are drained by
the completion signal: no callback fires during registration, and the
completion handler fires them all within its single synchronous drain,
exactly once each, in registration order (the drain's events are exactly
the invocation of the queued list in order). -/
theorem C2_pending_callbacks_fire_in_order (env : Env) (s : AdState) (url : String)
    (doc? : Option Ctx) (specs : List CallSpec) (co : CacheObject)
    (hget : getCacheObject s (doc?.getD 0) url = some co)
    (hl : co.loaded = false)
    (hpass : ∀ c ∈ specs, passesChecks env url c.mt c.mc = true)
    (hthrow : ∀ x ∈ co.callbacks ++ specs.filterMap CallSpec.cb?, env.throwsCb x = false) :
    (∀ e ∈ (runCalls env url doc? s specs).2.1, e.isInvoke = false) ∧
      (markLoaded env (runCalls env url doc? s specs).1 (doc?.getD 0) url).2 =
        (co.callbacks ++ specs.filterMap CallSpec.cb?).map Event.invoke := by
  obtain ⟨h1, _, h3⟩ := runCalls_join env url doc? specs s co hget hl hpass
  refine ⟨fun e he => (h3 e he).1, ?_⟩
  rw [markLoaded_some env _ _ _ _ h1]
  exact drainEvents_ok env _ hthrow

theorem C2_witness :
    getCacheObject ⟨[((0, "foo.js"), ⟨false, some ⟨0, "foo.js", []⟩, [1]⟩)], 1, [0]⟩
        0 "foo.js" = some ⟨false, some ⟨0, "foo.js", []⟩, [1]⟩ ∧
      (markLoaded envOK
          (runCalls envOK "foo.js" none
            ⟨[((0, "foo.js"), ⟨false, some ⟨0, "foo.js", []⟩, [1]⟩)], 1, [0]⟩
            [⟨"rtd", "debugging", some 2, none⟩, ⟨"rtd", "optable", some 3, none⟩]).1
          0 "foo.js").2 =
        [Event.invoke 1, Event.invoke 2, Event.invoke 3] := by
  refine ⟨by decide, ?_⟩
  exact (C2_pending_callbacks_fire_in_order envOK
    ⟨[((0, "foo.js"), ⟨false, some ⟨0, "foo.js", []⟩, [1]⟩)], 1, [0]⟩ "foo.js" none
    [⟨"rtd", "debugging", some 2, none⟩, ⟨"rtd", "optable", some 3, none⟩]
    ⟨false, some ⟨0, "foo.js", []⟩, [1]⟩ (by decide) rfl (by decide) (by decide)).2

/-- C1: in any sequence of passing calls for the same `(context, url)`
starting from a state without an entry, exactly one script element is
created and exactly one is inserted (the fetch happens once), and every
call — the creating one and all subsequent ones — returns the same
element, the one constructed by the first call. -/
theorem C1_one_fetch_same_handle (env : Env) (s : AdState) (url : String)
    (doc? : Option Ctx) (c0 : CallSpec) (rest : List CallSpec)
    (hget : getCacheObject s (doc?.getD 0) url = none)
    (hpass : ∀ c ∈ c0 :: rest, passesChecks env url c.mt c.mc = true) :
    (runCalls env url doc? s (c0 :: rest)).2.1.countP Event.isInsert = 1 ∧
      (runCalls env url doc? s (c0 :: rest)).2.1.countP Event.isCreate = 1 ∧
      (runCalls env url doc? s (c0 :: rest)).2.2 =
        (c0 :: rest).map
          (fun _ => Except.ok (some ⟨s.nextId, url, c0.attrs.getD []⟩)) := by
  have hc0 := hpass c0 (List.mem_cons_self c0 rest)
  have hrest := fun x hx => hpass x (List.mem_cons_of_mem c0 hx)
  have hstep := loadExternalScript_create_ok env s url c0.mt c0.mc c0.cb? doc? c0.attrs hc0 hget
  have hget' : getCacheObject
      (loadExternalScript env true s url c0.mt c0.mc c0.cb? doc? c0.attrs).state
      (doc?.getD 0) url =
      some ⟨false, some ⟨s.nextId, url, c0.attrs.getD []⟩, c0.cb?.toList⟩ := by
    rw [hstep]
    exact getCacheObject_cons_self _ _ _ _ _ _
  obtain ⟨_, ih2, ih3⟩ := runCalls_join env url doc? rest
    (loadExternalScript env true s url c0.mt c0.mc c0.cb? doc? c0.attrs).state
    ⟨false, some ⟨s.nextId, url, c0.attrs.getD []⟩, c0.cb?.toList⟩ hget' rfl hrest
  have hinsert0 : (runCalls env url doc?
      (loadExternalScript env true s url c0.mt c0.mc c0.cb? doc? c0.attrs).state
      rest).2.1.countP Event.isInsert = 0 :=
    List.countP_eq_zero.mpr (fun e he => by simp [(ih3 e he).2.1])
  have hcreate0 : (runCalls env url doc?
      (loadExternalScript env true s url c0.mt c0.mc c0.cb? doc? c0.attrs).state
      rest).2.1.countP Event.isCreate = 0 :=
    List.countP_eq_zero.mpr (fun e he => by simp [(ih3 e he).2.2])
  refine ⟨?_, ?_, ?_⟩
  · show ((loadExternalScript env true s url c0.mt c0.mc c0.cb? doc? c0.attrs).events ++
      (runCalls env url doc? _ rest).2.1).countP Event.isInsert = 1
    rw [List.countP_append, hinsert0, hstep]
    cases hattrs : c0.attrs <;> simp [attrEvents, Event.isInsert, List.countP_cons]
  · show ((loadExternalScript env true s url c0.mt c0.mc c0.cb? doc? c0.attrs).events ++
      (runCalls env url doc? _ rest).2.1).countP Event.isCreate = 1
    rw [List.countP_append, hcreate0, hstep]
    cases hattrs : c0.attrs <;> simp [attrEvents, Event.isCreate, List.countP_cons]
  · show (loadExternalScript env true s url c0.mt c0.mc c0.cb? doc? c0.attrs).ret ::
      (runCalls env url doc? _ rest).2.2 = _
    rw [ih2, hstep]
    simp

theorem C1_witness :
    getCacheObject AdState.init 0 "foo.js" = none ∧
      (runCalls envOK "foo.js" none AdState.init
          [⟨"rtd", "debugging", some 1, some [("a", "b")]⟩,
           ⟨"rtd", "optable", some 2, some [("c", "d")]⟩,
           ⟨"rtd", "browsi", none, none⟩]).2.1.countP Event.isInsert = 1 ∧
      (runCalls envOK "foo.js" none AdState.init
          [⟨"rtd", "debugging", some 1, some [("a", "b")]⟩,
           ⟨"rtd", "optable", some 2, some [("c", "d")]⟩,
           ⟨"rtd", "browsi", none, none⟩]).2.2 =
        [Except.ok (some ⟨0, "foo.js", [("a", "b")]⟩),
         Except.ok (some ⟨0, "foo.js", [("a", "b")]⟩),
         Except.ok (some ⟨0, "foo.js", [("a", "b")]⟩)] := by
  have h := C1_one_fetch_same_handle envOK AdState.init "foo.js" none
    ⟨"rtd", "debugging", some 1, some [("a", "b")]⟩
    [⟨"rtd", "optable", some 2, some [("c", "d")]⟩, ⟨"rtd", "browsi", none, none⟩]
    (by decide) (by decide)
  exact ⟨by decide, h.1, h.2.2⟩

/-- One scheduler step preserves the dead-entry invariant: the poisoned
entry stays pending, its element is never inserted, its queued callback
never fires, and no completion signal for it can be well-formed. -/
theorem deadInv_step (env : Env) (d : Ctx) (u : Url) (cb : Nat) (t : ScriptTag)
    (st : Step) (s : AdState) (hinv : DeadInv d u cb t s)
    (hwf : (match st with
            | Step.complete d' u' => completeReady s d' u'
            | Step.call _ _ _ _ _ _ _ => true) = true)
    (hcb : st.cbOf ≠ some cb) :
    DeadInv d u cb t (runStep env s st).1 ∧
      Event.invoke cb ∉ (runStep env s st).2 ∧
      (∀ t', t'.src = u → Event.insertScript d t' ∉ (runStep env s st).2) ∧
      st ≠ Step.complete d u := by
  obtain ⟨⟨l, hentry⟩, hnotins, hlt, hothers⟩ := hinv
  cases st with
  | complete d' u' =>
    have hne : (d', u') ≠ (d, u) := by
      intro hp
      have hd : d' = d := congrArg Prod.fst hp
      have hu : u' = u := congrArg Prod.snd hp
      have hwf' : completeReady s d' u' = true := hwf
      rw [hd, hu] at hwf'
      unfold completeReady at hwf'
      rw [hentry] at hwf'
      simp only at hwf'
      exact hnotins (by simpa using hwf')
    have hC : Step.complete d' u' ≠ Step.complete d u := by
      intro hh
      injection hh with h1 h2
      exact hne (by rw [h1, h2])
    show DeadInv d u cb t (markLoaded env s d' u').1 ∧
      Event.invoke cb ∉ (markLoaded env s d' u').2 ∧
      (∀ t', t'.src = u → Event.insertScript d t' ∉ (markLoaded env s d' u').2) ∧ _
    cases hget' : getCacheObject s d' u' with
    | none =>
      rw [markLoaded_none env s d' u' hget']
      exact ⟨⟨⟨l, hentry⟩, hnotins, hlt, hothers⟩, by simp, fun t' _ => by simp, hC⟩
    | some co' =>
      rw [markLoaded_some env s d' u' co' hget']
      have hcbnot : cb ∉ co'.callbacks := hothers (d', u') co' hne hget'
      refine ⟨⟨⟨l, ?_⟩, ?_, ?_, ?_⟩, ?_, ?_, hC⟩
      · rw [getCacheObject_set_other s d' u' _ d u (Ne.symm hne)]
        exact hentry
      · rw [setCacheObject_inserted]
        exact hnotins
      · rw [setCacheObject_nextId]
        exact hlt
      · intro p co'' hp hget''
        by_cases hpd : p = (d', u')
        · subst hpd
          rw [getCacheObject_set_same] at hget''
          injection hget'' with h''
          rw [← h'']
          exact hcbnot
        · rw [getCacheObject_set_other s d' u' _ p.1 p.2 (by simpa using hpd)] at hget''
          exact hothers p co'' hp hget''
      · intro hmem
        rcases mem_drainEvents env co'.callbacks _ hmem with ⟨c, hc, hcmem⟩ | hc
        · injection hc with h''
          rw [h''] at hcbnot
          exact hcbnot hcmem
        · exact Event.noConfusion hc
      · intro t' _ hmem
        rcases mem_drainEvents env co'.callbacks _ hmem with ⟨c, hc, _⟩ | hc
        · exact Event.noConfusion hc
        · exact Event.noConfusion hc
  | call io u' mt' mc' cb?' doc?' attrs' =>
    have hC : Step.call io u' mt' mc' cb?' doc?' attrs' ≠ Step.complete d u := by
      intro hh
      exact Step.noConfusion hh
    have hcb' : cb?' ≠ some cb := hcb
    show DeadInv d u cb t (loadExternalScript env io s u' mt' mc' cb?' doc?' attrs').state ∧
      Event.invoke cb ∉ (loadExternalScript env io s u' mt' mc' cb?' doc?' attrs').events ∧
      (∀ t', t'.src = u →
        Event.insertScript d t' ∉
          (loadExternalScript env io s u' mt' mc' cb?' doc?' attrs').events) ∧ _
    cases h1 : env.isActivityAllowed mt' mc' with
    | false =>
      rw [loadExternalScript_policy_denied env io s u' mt' mc' cb?' doc?' attrs' h1]
      exact ⟨⟨⟨l, hentry⟩, hnotins, hlt, hothers⟩, by simp, fun t' _ => by simp, hC⟩
    | true =>
      cases h2 : (mc'.isEmpty || u'.isEmpty) with
      | true =>
        rw [loadExternalScript_invalid env io s u' mt' mc' cb?' doc?' attrs' h1 h2]
        exact ⟨⟨⟨l, hentry⟩, hnotins, hlt, hothers⟩, by simp, fun t' _ => by simp, hC⟩
      | false =>
        cases h3 : _approvedLoadExternalJSList.contains mc' with
        | false =>
          rw [loadExternalScript_not_approved env io s u' mt' mc' cb?' doc?' attrs' h1 h2 h3]
          exact ⟨⟨⟨l, hentry⟩, hnotins, hlt, hothers⟩, by simp, fun t' _ => by simp, hC⟩
        | true =>
          have hpc : passesChecks env u' mt' mc' = true := by
            unfold passesChecks; rw [h1, h2, h3]; rfl
          cases hget' : getCacheObject s (doc?'.getD 0) u' with
          | some co' =>
            cases cb?' with
            | none =>
              rw [loadExternalScript_join_nocb env io s u' mt' mc' doc?' attrs' co' hpc hget']
              exact ⟨⟨⟨l, hentry⟩, hnotins, hlt, hothers⟩, by simp, fun t' _ => by simp, hC⟩
            | some c =>
              have hcne : c ≠ cb := fun hh => hcb' (by rw [hh])
              cases hl' : co'.loaded with
              | false =>
                rw [loadExternalScript_join_pending env io s u' mt' mc' c doc?' attrs' co' hpc
                  hget' hl']
                by_cases hpd : ((doc?'.getD 0 : Ctx), u') = (d, u)
                · have hd0 : doc?'.getD 0 = d := congrArg Prod.fst hpd
                  have hu0 : u' = u := congrArg Prod.snd hpd
                  have hco' : co' = ⟨false, some t, cb :: l⟩ := by
                    rw [hd0, hu0, hentry] at hget'
                    injection hget' with hh
                    exact hh.symm
                  refine ⟨⟨⟨l ++ [c], ?_⟩, ?_, ?_, ?_⟩, by simp, fun t' _ => by simp, hC⟩
                  · rw [← hd0, ← hu0]
                    rw [getCacheObject_set_same]
                    rw [hco']
                    simp
                  · rw [setCacheObject_inserted]; exact hnotins
                  · rw [setCacheObject_nextId]; exact hlt
                  · intro p co'' hp hget''
                    rw [getCacheObject_set_other s _ u' _ p.1 p.2
                      (by rw [hd0, hu0]; simpa using hp)] at hget''
                    exact hothers p co'' hp hget''
                · refine ⟨⟨⟨l, ?_⟩, ?_, ?_, ?_⟩, by simp, fun t' _ => by simp, hC⟩
                  · rw [getCacheObject_set_other s _ u' _ d u (fun hh => hpd hh.symm)]
                    exact hentry
                  · rw [setCacheObject_inserted]; exact hnotins
                  · rw [setCacheObject_nextId]; exact hlt
                  · intro p co'' hp hget''
                    by_cases hpp : p = (doc?'.getD 0, u')
                    · subst hpp
                      rw [getCacheObject_set_same] at hget''
                      injection hget'' with h''
                      rw [← h'']
                      have : cb ∉ co'.callbacks := hothers _ co' hpd hget'
                      simp only [List.mem_append, List.mem_singleton]
                      rintro (hmem | hmem)
                      · exact this hmem
                      · exact hcne hmem.symm
                    · rw [getCacheObject_set_other s _ u' _ p.1 p.2
                        (by simpa using hpp)] at hget''
                      exact hothers p co'' hp hget''
              | true =>
                cases hcbt : env.throwsCb c with
                | false =>
                  rw [loadExternalScript_join_loaded env io s u' mt' mc' c doc?' attrs' co' hpc
                    hget' hl' hcbt]
                  refine ⟨⟨⟨l, hentry⟩, hnotins, hlt, hothers⟩, ?_, fun t' _ => by simp, hC⟩
                  simp only [List.mem_cons, List.mem_singleton]
                  rintro (hh | hh | hh)
                  · exact Event.noConfusion hh
                  · injection hh with h''; exact hcne h''.symm
                  · simp at hh
                | true =>
                  rw [loadExternalScript_join_loaded_throw env io s u' mt' mc' c doc?' attrs' co'
                    hpc hget' hl' hcbt]
                  refine ⟨⟨⟨l, hentry⟩, hnotins, hlt, hothers⟩, ?_, fun t' _ => by simp, hC⟩
                  simp only [List.mem_cons, List.mem_singleton]
                  rintro (hh | hh | hh)
                  · exact Event.noConfusion hh
                  · injection hh with h''; exact hcne h''.symm
                  · simp at hh
          | none =>
            have hkey : ((doc?'.getD 0 : Ctx), u') ≠ (d, u) := by
              intro hp
              have hd0 : doc?'.getD 0 = d := congrArg Prod.fst hp
              have hu0 : u' = u := congrArg Prod.snd hp
              rw [hd0, hu0, hentry] at hget'
              exact Option.noConfusion hget'
            have hsrc : ∀ t', t'.src = u →
                (Event.insertScript d t' ≠
                  Event.insertScript (doc?'.getD 0) ⟨s.nextId, u', attrs'.getD []⟩) := by
              intro t' ht' hh
              injection hh with hd hh'
              apply hkey
              rw [← hd]
              rw [← ht', hh']
            have hentry' : ∀ (n : Nat) (i : List Nat) co0,
                getCacheObject ⟨((doc?'.getD 0, u'), co0) :: s.cache, n, i⟩ d u =
                  some ⟨false, some t, cb :: l⟩ := by
              intro n i co0
              rw [getCacheObject_cons_other s.cache n i _ u' co0 d u (Ne.symm hkey)]
              exact hentry
            have hothers' : ∀ (n : Nat) (i : List Nat) co0, cb ∉ co0.callbacks →
                ∀ p co'', p ≠ (d, u) →
                getCacheObject ⟨((doc?'.getD 0, u'), co0) :: s.cache, n, i⟩ p.1 p.2 = some co'' →
                cb ∉ co''.callbacks := by
              intro n i co0 hco0 p co'' hp hget''
              by_cases hpp : p = (doc?'.getD 0, u')
              · rw [hpp] at hget''
                rw [getCacheObject_cons_self] at hget''
                injection hget'' with h''
                rw [← h'']
                exact hco0
              · rw [show p = (p.1, p.2) from rfl] at hpp
                rw [getCacheObject_cons_other s.cache n i _ u' co0 p.1 p.2 hpp] at hget''
                exact hothers p co'' hp hget''
            have hcbtoList : cb ∉ cb?'.toList := by
              cases hc' : cb?' with
              | none => simp
              | some c =>
                have : c ≠ cb := fun hh => hcb' (by rw [hc', hh])
                simp only [Option.toList_some, List.mem_singleton]
                exact fun hh => this hh.symm
            cases io with
            | true =>
              rw [loadExternalScript_create_ok env s u' mt' mc' cb?' doc?' attrs' hpc hget']
              refine ⟨⟨⟨l, hentry' _ _ _⟩, ?_, ?_, hothers' _ _ _ hcbtoList⟩, ?_, ?_, hC⟩
              · simp only [List.mem_append, List.mem_singleton]
                rintro (hh | hh)
                · exact hnotins hh
                · exact absurd hh (Nat.ne_of_lt hlt)
              · exact Nat.lt_succ_of_lt hlt
              · cases attrs' <;> simp [attrEvents]
              · intro t' ht'
                cases attrs' <;> simp only [attrEvents, List.mem_append, List.mem_cons,
                  List.mem_singleton, List.not_mem_nil] <;>
                  rintro ((hh | hh | hh) | hh | hh) <;>
                  first
                  | exact Event.noConfusion hh
                  | exact hsrc t' ht' hh
                  | simp at hh
            | false =>
              rw [loadExternalScript_create_fail env s u' mt' mc' cb?' doc?' attrs' hpc hget']
              refine ⟨⟨⟨l, hentry' _ _ _⟩, hnotins, Nat.lt_succ_of_lt hlt,
                hothers' _ _ _ hcbtoList⟩, ?_, ?_, hC⟩
              · cases attrs' <;> simp [attrEvents]
              · intro t' ht'
                cases attrs' <;> simp only [attrEvents, List.mem_append, List.mem_cons,
                  List.mem_singleton, List.not_mem_nil] <;>
                  rintro ((hh | hh | hh) | hh) <;>
                  first
                  | exact Event.noConfusion hh
                  | simp at hh

/-- The dead-entry invariant is preserved by every well-formed trace. -/
theorem deadInv_run (env : Env) (d : Ctx) (u : Url) (cb : Nat) (t : ScriptTag) :
    ∀ (steps : List Step) (s : AdState), DeadInv d u cb t s →
    wfTrace env s steps = true → (∀ st ∈ steps, st.cbOf ≠ some cb) →
    DeadInv d u cb t (run env s steps).1 ∧
      Event.invoke cb ∉ (run env s steps).2 ∧
      (∀ t', t'.src = u → Event.insertScript d t' ∉ (run env s steps).2) ∧
      Step.complete d u ∉ steps := by
  intro steps
  induction steps with
  | nil =>
    intro s hinv _ _
    exact ⟨hinv, by simp [run], fun t' _ => by simp [run], by simp⟩
  | cons st rest ih =>
    intro s hinv hwf hcb
    simp only [wfTrace, Bool.and_eq_true] at hwf
    obtain ⟨hg, hwrest⟩ := hwf
    have hstep := deadInv_step env d u cb t st s hinv hg (hcb st (List.mem_cons_self st rest))
    have hrest := ih (runStep env s st).1 hstep.1 hwrest
      (fun x hx => hcb x (List.mem_cons_of_mem st hx))
    refine ⟨hrest.1, ?_, ?_, ?_⟩
    · show Event.invoke cb ∉ (runStep env s st).2 ++ (run env (runStep env s st).1 rest).2
      simp only [List.mem_append]
      rintro (hh | hh)
      · exact hstep.2.1 hh
      · exact hrest.2.1 hh
    · intro t' ht'
      show Event.insertScript d t' ∉ (runStep env s st).2 ++ (run env (runStep env s st).1 rest).2
      simp only [List.mem_append]
      rintro (hh | hh)
      · exact hstep.2.2.1 t' ht' hh
      · exact hrest.2.2.1 t' ht' hh
    · simp only [List.mem_cons]
      rintro (hh | hh)
      · exact hstep.2.2.2 hh.symm
      · exact hrest.2.2.2 hh

/-- C10: when the synchronous insertion step of the entry-creating call
throws, the exception propagates to that caller, but the freshly created
entry stays in the cache, pending, with the creator's callback queued.
In every well-formed continuation (completion signals only fire for
elements actually inserted into a document) that does not reuse the
creator's callback identifier, the entry remains pending with that
callback still queued (later joiners only append to it), no script
element for that `(context, url)` is ever inserted again, the queued
callback never fires, and no completion step for the entry is possible. -/
theorem C10_failed_insert_leaves_dead_entry (env : Env) (url mt mc : String) (cb : Nat)
    (d : Ctx) (attrs : Option (List (String × String))) (steps : List Step)
    (h : passesChecks env url mt mc = true)
    (hw : wfTrace env
      (loadExternalScript env false AdState.init url mt mc (some cb) (some d) attrs).state
      steps = true)
    (hcb : ∀ st ∈ steps, st.cbOf ≠ some cb) :
    (loadExternalScript env false AdState.init url mt mc (some cb) (some d) attrs).ret =
        .error () ∧
      (∃ l, getCacheObject (run env
          (loadExternalScript env false AdState.init url mt mc (some cb) (some d) attrs).state
          steps).1 d url = some ⟨false, some ⟨0, url, attrs.getD []⟩, cb :: l⟩) ∧
      Event.invoke cb ∉ (run env
        (loadExternalScript env false AdState.init url mt mc (some cb) (some d) attrs).state
        steps).2 ∧
      (∀ t', t'.src = url → Event.insertScript d t' ∉ (run env
        (loadExternalScript env false AdState.init url mt mc (some cb) (some d) attrs).state
        steps).2) ∧
      Step.complete d url ∉ steps := by
  have hget0 : getCacheObject AdState.init ((some d).getD 0) url = none := by
    unfold getCacheObject AdState.init
    rfl
  have hstep := loadExternalScript_create_fail env AdState.init url mt mc (some cb) (some d)
    attrs h hget0
  have hinv : DeadInv d url cb ⟨0, url, attrs.getD []⟩
      (loadExternalScript env false AdState.init url mt mc (some cb) (some d) attrs).state := by
    rw [hstep]
    refine ⟨⟨[], ?_⟩, ?_, ?_, ?_⟩
    · simp only [Option.getD_some]
      exact getCacheObject_cons_self _ _ _ _ _ _
    · simp [AdState.init]
    · simp [AdState.init]
    · intro p co hp hgetp
      simp only [Option.getD_some, AdState.init] at hgetp
      rw [getCacheObject_cons_other [] 1 [] d url _ p.1 p.2
        (by simpa using hp)] at hgetp
      simp at hgetp
  have hrun := deadInv_run env d url cb ⟨0, url, attrs.getD []⟩ steps
    (loadExternalScript env false AdState.init url mt mc (some cb) (some d) attrs).state
    hinv hw hcb
  refine ⟨?_, ?_, hrun.2.1, hrun.2.2.1, hrun.2.2.2⟩
  · rw [hstep]
  · obtain ⟨⟨⟨l, hl⟩, -, -, -⟩, -, -, -⟩ := hrun
    exact ⟨l, hl⟩

theorem C10_witness :
    passesChecks envOK "foo.js" "rtd" "debugging" = true ∧
      wfTrace envOK
        (loadExternalScript envOK false AdState.init "foo.js" "rtd" "debugging" (some 1)
          (some 0) none).state
        [Step.call true "bar.js" "rtd" "optable" (some 2) (some 0) none,
         Step.complete 0 "bar.js",
         Step.call true "foo.js" "rtd" "optable" (some 3) (some 0) none] = true ∧
      (∃ l, getCacheObject (run envOK
          (loadExternalScript envOK false AdState.init "foo.js" "rtd" "debugging" (some 1)
            (some 0) none).state
          [Step.call true "bar.js" "rtd" "optable" (some 2) (some 0) none,
           Step.complete 0 "bar.js",
           Step.call true "foo.js" "rtd" "optable" (some 3) (some 0) none]).1 0 "foo.js" =
        some ⟨false, some ⟨0, "foo.js", []⟩, 1 :: l⟩) ∧
      Event.invoke 1 ∉ (run envOK
        (loadExternalScript envOK false AdState.init "foo.js" "rtd" "debugging" (some 1)
          (some 0) none).state
        [Step.call true "bar.js" "rtd" "optable" (some 2) (some 0) none,
         Step.complete 0 "bar.js",
         Step.call true "foo.js" "rtd" "optable" (some 3) (some 0) none]).2 := by
  have h := C10_failed_insert_leaves_dead_entry envOK "foo.js" "rtd" "debugging" 1 0 none
    [Step.call true "bar.js" "rtd" "optable" (some 2) (some 0) none,
     Step.complete 0 "bar.js",
     Step.call true "foo.js" "rtd" "optable" (some 3) (some 0) none]
    (by decide) (by decide)
    (by
      intro st hst
      simp only [List.mem_cons, List.not_mem_nil, or_false] at hst
      rcases hst with hst | hst | hst <;> subst hst <;> simp [Step.cbOf])
  exact ⟨by decide, by decide, h.2.1, h.2.2.1⟩

end Adloader
